import Mathlib

/-!
# Verification of the koii-network/namespace-wrapper protocol core

A shallow embedding, in Lean 4, of the protocol layer of
`src/index.ts` (class `NamespaceWrapper`): audit-vote bookkeeping
(`auditSubmission`, `distributionListAuditSubmission`), batch auditing
(`validateAndVoteOnNodes`, `validateAndVoteOnDistributionList`),
multi-gateway content retrieval (`retrieveThroughHttpGateway`),
deterministic leader selection (`nodeSelectionDistributionList`), and
payout coordination (`selectAndGenerateDistributionList`,
`payoutTrigger`).

Conventions of the embedding:
* State-mutating operations are embedded with their standalone-mode
  semantics (`taskNodeAdministered = false`), where writes mutate the
  in-memory `testingTaskState`; the administered branches delegate the
  same writes to an external RPC host that is not part of this
  repository.  Mutation is modelled by explicit state passing.
* JavaScript objects (string-keyed records) are modelled as
  association lists that preserve insertion order, matching the
  iteration order of `Object.keys` for non-numeric string keys.
  Assignment to an existing key keeps its position; assignment to a
  fresh key appends.
* External collaborators (HTTP gateways, `JSON.parse` of fetched
  payloads, `nacl` signature verification, the caller-supplied
  `validate` predicate, the random sampler) are inputs (oracles) of
  the embedded functions.
* `crypto.createHash('sha256')` and `JSON.stringify` are embedded
  concretely below, since the node-selection scores depend on their
  exact output.
* JavaScript numbers that the code treats as non-negative integers
  (rounds, slots, scores) are `Nat`; `-Infinity` sentinels are
  `Option Nat` with `none` below every `Nat`.
-/

/-! ## Association lists (JavaScript object semantics) -/

/-- Lookup in a JavaScript-object-like association list (`obj[k]`,
`undefined` as `none`). -/
def alookup {κ α : Type} [DecidableEq κ] (m : List (κ × α)) (k : κ) : Option α :=
  match m with
  | [] => none
  | (k₁, v) :: rest => if k₁ = k then some v else alookup rest k

/-- Assignment `obj[k] = v` on a JavaScript-object-like association
list: an existing key keeps its position, a fresh key is appended. -/
def aset {κ α : Type} [DecidableEq κ] (m : List (κ × α)) (k : κ) (v : α) :
    List (κ × α) :=
  match m with
  | [] => [(k, v)]
  | (k₁, v₁) :: rest => if k₁ = k then (k, v) :: rest else (k₁, v₁) :: aset rest k v

/-! ## SHA-256 (`crypto.createHash('sha256') ... digest('hex')`)

A byte-level embedding of SHA-256 over `List Nat` (bytes), with 32-bit
words represented as `Nat` reduced mod `2 ^ 32`. -/

/-- Truncate to a 32-bit word. -/
def w32 (n : Nat) : Nat := n % 4294967296

/-- 32-bit right rotation (the argument is assumed `< 2 ^ 32`). -/
def rotr32 (n x : Nat) : Nat := w32 ((x >>> n) ||| (x <<< (32 - n)))

def shaCh (x y z : Nat) : Nat := (x &&& y) ^^^ ((x ^^^ 4294967295) &&& z)

def shaMaj (x y z : Nat) : Nat := (x &&& y) ^^^ (x &&& z) ^^^ (y &&& z)

def bigSigma0 (x : Nat) : Nat := rotr32 2 x ^^^ rotr32 13 x ^^^ rotr32 22 x

def bigSigma1 (x : Nat) : Nat := rotr32 6 x ^^^ rotr32 11 x ^^^ rotr32 25 x

def smallSigma0 (x : Nat) : Nat := rotr32 7 x ^^^ rotr32 18 x ^^^ (x >>> 3)

def smallSigma1 (x : Nat) : Nat := rotr32 17 x ^^^ rotr32 19 x ^^^ (x >>> 10)

/-- The 64 SHA-256 round constants. -/
def shaK : List Nat :=
  [1116352408, 1899447441, 3049323471, 3921009573, 961987163,
   1508970993, 2453635748, 2870763221, 3624381080, 310598401,
   607225278, 1426881987, 1925078388, 2162078206, 2614888103,
   3248222580, 3835390401, 4022224774, 264347078, 604807628,
   770255983, 1249150122, 1555081692, 1996064986, 2554220882,
   2821834349, 2952996808, 3210313671, 3336571891, 3584528711,
   113926993, 338241895, 666307205, 773529912, 1294757372,
   1396182291, 1695183700, 1986661051, 2177026350, 2456956037,
   2730485921, 2820302411, 3259730800, 3345764771, 3516065817,
   3600352804, 4094571909, 275423344, 430227734, 506948616,
   659060556, 883997877, 958139571, 1322822218, 1537002063,
   1747873779, 1955562222, 2024104815, 2227730452, 2361852424,
   2428436474, 2756734187, 3204031479, 3329325298]

/-- The SHA-256 initial hash value. -/
def shaH0 : List Nat :=
  [1779033703, 3144134277, 1013904242, 2773480762, 1359893119,
   2600822924, 528734635, 1541459225]

/-- SHA-256 padding of a byte string: `0x80`, zeros, and the 64-bit
big-endian bit length. -/
def sha256Pad (msg : List Nat) : List Nat :=
  let len := msg.length
  let bitLen := len * 8
  let zeros := (119 - len % 64) % 64
  msg ++ [128] ++ List.replicate zeros 0 ++
    [(bitLen >>> 56) % 256, (bitLen >>> 48) % 256, (bitLen >>> 40) % 256,
     (bitLen >>> 32) % 256, (bitLen >>> 24) % 256, (bitLen >>> 16) % 256,
     (bitLen >>> 8) % 256, bitLen % 256]

/-- Group bytes into big-endian 32-bit words. -/
def toWords : List Nat → List Nat
  | a :: b :: c :: d :: rest => (a * 16777216 + b * 65536 + c * 256 + d) :: toWords rest
  | _ => []

/-- Split a word list into 16-word blocks (structural recursion on a
fuel counter so that the definition reduces in the kernel; the fuel
`ws.length` always suffices). -/
def chunk16Go : Nat → List Nat → List (List Nat)
  | 0, _ => []
  | _, [] => []
  | fuel + 1, wd :: rest => (wd :: rest.take 15) :: chunk16Go fuel (rest.drop 15)

/-- Split a word list into 16-word blocks. -/
def chunk16 (ws : List Nat) : List (List Nat) := chunk16Go ws.length ws

/-- One extension step of the SHA-256 message schedule. -/
def scheduleStep (ws : List Nat) (_t : Nat) : List Nat :=
  let n := ws.length
  ws ++ [w32 (smallSigma1 (ws.getD (n - 2) 0) + ws.getD (n - 7) 0 +
              smallSigma0 (ws.getD (n - 15) 0) + ws.getD (n - 16) 0)]

/-- Extend a 16-word block to the 64-word message schedule. -/
def schedule (block : List Nat) : List Nat :=
  (List.range 48).foldl scheduleStep block

/-- One SHA-256 compression round on the 8-word working state. -/
def compressStep (st : List Nat) (kw : Nat × Nat) : List Nat :=
  match st with
  | [a, b, c, d, e, f, g, h] =>
    let t1 := w32 (h + bigSigma1 e + shaCh e f g + kw.1 + kw.2)
    let t2 := w32 (bigSigma0 a + shaMaj a b c)
    [w32 (t1 + t2), a, b, c, w32 (d + t1), e, f, g]
  | other => other

/-- Compress one 16-word block into the running hash value. -/
def compressBlock (h : List Nat) (block : List Nat) : List Nat :=
  let st := (shaK.zip (schedule block)).foldl compressStep h
  (h.zip st).map (fun p => w32 (p.1 + p.2))

/-- SHA-256 of a byte string, as eight 32-bit words. -/
def sha256Words (msg : List Nat) : List Nat :=
  (chunk16 (toWords (sha256Pad msg))).foldl compressBlock shaH0

/-- A hex digit (lowercase, as produced by `digest('hex')`). -/
def hexDigitChar (n : Nat) : Char :=
  if n < 10 then Char.ofNat (48 + n) else Char.ofNat (87 + n)

/-- Eight lowercase hex digits of a 32-bit word. -/
def wordHexChars (w : Nat) : List Char :=
  [hexDigitChar ((w >>> 28) &&& 15), hexDigitChar ((w >>> 24) &&& 15),
   hexDigitChar ((w >>> 20) &&& 15), hexDigitChar ((w >>> 16) &&& 15),
   hexDigitChar ((w >>> 12) &&& 15), hexDigitChar ((w >>> 8) &&& 15),
   hexDigitChar ((w >>> 4) &&& 15), hexDigitChar (w &&& 15)]

/-- UTF-8 encoding of one character (Node's `update` of a string uses
UTF-8). -/
def utf8EncodeChar (c : Char) : List Nat :=
  let n := c.toNat
  if n < 128 then [n]
  else if n < 2048 then [192 ||| (n >>> 6), 128 ||| (n &&& 63)]
  else if n < 65536 then
    [224 ||| (n >>> 12), 128 ||| ((n >>> 6) &&& 63), 128 ||| (n &&& 63)]
  else
    [240 ||| (n >>> 18), 128 ||| ((n >>> 12) &&& 63),
     128 ||| ((n >>> 6) &&& 63), 128 ||| (n &&& 63)]

/-- UTF-8 bytes of a string. -/
def strBytes (s : String) : List Nat := (s.toList.map utf8EncodeChar).flatten

/-- `crypto.createHash('sha256').update(s).digest('hex')`. -/
def sha256Hex (s : String) : String :=
  String.mk ((sha256Words (strBytes s)).map wordHexChars).flatten

/-! ## Data model (`src/types.ts`, standalone `testingTaskState`) -/

/-- One node's reported result for a round (`Submission` in
`types.ts`; the `round` field is optional there). -/
structure Submission where
  submission_value : String
  slot : Nat
  round : Option Nat
deriving DecidableEq

/-- One audit vote (`{ is_valid, voter, slot }`). -/
structure AuditVote where
  is_valid : Bool
  voter : String
  slot : Nat
deriving DecidableEq

/-- `AuditTriggerState` from `types.ts`. -/
structure AuditTriggerState where
  trigger_by : String
  slot : Nat
  votes : List AuditVote
deriving DecidableEq

/-- A per-round submission map (`Record<PublicKeyString, Submission>`),
in insertion order. -/
abbrev SubMap := List (String × Submission)

/-- A per-round audit-trigger map
(`Record<string, AuditTriggerState>`). -/
abbrev TriggerMap := List (String × AuditTriggerState)

/-- One entry of `testingDistributionList[round]`: the only writer,
`uploadDistributionList`, stores `Buffer.from(JSON.stringify(...))`,
an opaque byte blob. -/
structure DistVal where
  bytes : String
deriving DecidableEq

/-- A `Buffer` has no `submission_value` property, so the JavaScript
access `entry.submission_value` yields `undefined` on every stored
entry. -/
def DistVal.submissionValueProp (_ : DistVal) : Option String := none

/-- `testingDistributionList`: round → staking key → stored blob. -/
abbrev DistLists := List (Nat × List (String × DistVal))

/-- The fields of the standalone `testingTaskState` that the embedded
protocol operations read or write.  `available_balances` holds
whatever value `payoutTrigger` last assigned over it (a
distribution-list entry, or `undefined` = `none`). -/
structure TaskState where
  submissions : List (Nat × SubMap)
  submissions_audit_trigger : List (Nat × TriggerMap)
  distribution_rewards_submission : List (Nat × SubMap)
  distributions_audit_trigger : List (Nat × TriggerMap)
  distributions_audit_record : List (Nat × String)
  available_balances : Option DistVal
  audit_window : Nat
  submission_window : Nat
deriving DecidableEq

/-- The `TaskSubmissionState` slice returned by
`getTaskSubmissionInfo` (administered mode fetches it per round). -/
structure TaskSubmissionState where
  submissions : List (Nat × SubMap)
  submissions_audit_trigger : List (Nat × TriggerMap)
deriving DecidableEq

/-- The `TaskDistributionInfo` slice returned by
`getTaskDistributionInfo`. -/
structure TaskDistributionInfo where
  distribution_rewards_submission : List (Nat × SubMap)
  distributions_audit_trigger : List (Nat × TriggerMap)
  distributions_audit_record : List (Nat × String)
deriving DecidableEq

/-- The audit trigger recorded for `cand` in `round`, if any
(submission-audit side). -/
def triggerFor (st : TaskState) (round : Nat) (cand : String) :
    Option AuditTriggerState :=
  (alookup st.submissions_audit_trigger round).bind (fun tm => alookup tm cand)

/-- The audit trigger recorded for `cand` in `round`, if any
(distribution-audit side). -/
def distTriggerFor (st : TaskState) (round : Nat) (cand : String) :
    Option AuditTriggerState :=
  (alookup st.distributions_audit_trigger round).bind (fun tm => alookup tm cand)

/-! ## `auditSubmission` / `distributionListAuditSubmission`
(standalone branches, `index.ts` lines 623-655 and 942-979)

`stakingKey` is `testingStakingSystemAccount.publicKey` (used for
`trigger_by`), `voterPub` is `voterKeypair.publicKey`.  Note that when
the round has a trigger map but the candidate has no entry in it, the
`else` branch *replaces* the whole round map with a singleton. -/

/-- `auditSubmission` (standalone branch). -/
def auditSubmission (st : TaskState) (stakingKey : String) (cand : String)
    (isValid : Bool) (voterPub : String) (round : Nat) : TaskState :=
  match alookup st.submissions_audit_trigger round with
  | some tm =>
    match alookup tm cand with
    | some trig =>
      { st with
          submissions_audit_trigger :=
            aset st.submissions_audit_trigger round
              (aset tm cand
                { trig with votes := trig.votes ++ [⟨isValid, voterPub, 100⟩] }) }
    | none =>
      { st with
          submissions_audit_trigger :=
            aset st.submissions_audit_trigger round [(cand, ⟨stakingKey, 100, []⟩)] }
  | none =>
    { st with
        submissions_audit_trigger :=
          aset st.submissions_audit_trigger round [(cand, ⟨stakingKey, 100, []⟩)] }

/-- `distributionListAuditSubmission` (standalone branch). -/
def distributionListAuditSubmission (st : TaskState) (stakingKey : String)
    (cand : String) (isValid : Bool) (voterPub : String) (round : Nat) : TaskState :=
  match alookup st.distributions_audit_trigger round with
  | some tm =>
    match alookup tm cand with
    | some trig =>
      { st with
          distributions_audit_trigger :=
            aset st.distributions_audit_trigger round
              (aset tm cand
                { trig with votes := trig.votes ++ [⟨isValid, voterPub, 100⟩] }) }
    | none =>
      { st with
          distributions_audit_trigger :=
            aset st.distributions_audit_trigger round [(cand, ⟨stakingKey, 100, []⟩)] }
  | none =>
    { st with
        distributions_audit_trigger :=
          aset st.distributions_audit_trigger round [(cand, ⟨stakingKey, 100, []⟩)] }

/-! ## Casting the resulting vote
(`validateAndVoteOnNodes` lines 786-812,
`validateAndVoteOnDistributionList` lines 1049-1081)

A positive vote is recorded only when the fetched state already shows
an audit trigger for the candidate in the round; a negative vote is
always recorded.  In standalone mode the fetched
`taskAccountDataJSON` aliases the live `testingTaskState`, so the
check reads the current state `st`. -/

/-- The vote-casting tail of the per-candidate loop body of
`validateAndVoteOnNodes`. -/
def submissionVoteStep (st : TaskState) (stakingKey cand : String)
    (isValid : Bool) (voterPub : String) (round : Nat) : TaskState :=
  if isValid then
    match alookup st.submissions_audit_trigger round with
    | some tm =>
      match alookup tm cand with
      | some _ => auditSubmission st stakingKey cand isValid voterPub round
      | none => st
    | none => st
  else auditSubmission st stakingKey cand isValid voterPub round

/-- The vote-casting tail of the per-candidate loop body of
`validateAndVoteOnDistributionList`. -/
def distributionVoteStep (st : TaskState) (stakingKey cand : String)
    (isValid : Bool) (voterPub : String) (round : Nat) : TaskState :=
  if isValid then
    match alookup st.distributions_audit_trigger round with
    | some tm =>
      match alookup tm cand with
      | some _ => distributionListAuditSubmission st stakingKey cand isValid voterPub round
      | none => st
    | none => st
  else distributionListAuditSubmission st stakingKey cand isValid voterPub round

/-! ## `JSON.stringify` for the serialized shapes used by node
selection

`nodeSelectionDistributionList` serializes the array of submission
records and singleton objects `{key: submission}`.  Standalone
submission records are created with insertion order
`submission_value`, `slot`, `round` (`checkSubmissionAndUpdateRound`);
`JSON.stringify` drops `undefined` properties and renders a missing
entry in an array as `null`. -/

/-- `JSON.stringify` escaping of one character. -/
def jsonEscapeChar (c : Char) : List Char :=
  if c.toNat = 34 then [Char.ofNat 92, Char.ofNat 34]
  else if c.toNat = 92 then [Char.ofNat 92, Char.ofNat 92]
  else if c.toNat = 8 then [Char.ofNat 92, 'b']
  else if c.toNat = 9 then [Char.ofNat 92, 't']
  else if c.toNat = 10 then [Char.ofNat 92, 'n']
  else if c.toNat = 12 then [Char.ofNat 92, 'f']
  else if c.toNat = 13 then [Char.ofNat 92, 'r']
  else if c.toNat < 32 then
    [Char.ofNat 92, 'u', '0', '0', hexDigitChar (c.toNat / 16), hexDigitChar (c.toNat % 16)]
  else [c]

/-- `JSON.stringify` of a string value. -/
def jsonString (s : String) : String :=
  String.mk ([Char.ofNat 34] ++ (s.toList.map jsonEscapeChar).flatten ++ [Char.ofNat 34])

/-- `JSON.stringify` of a submission record. -/
def jsonSubmission (s : Submission) : String :=
  "\x7b\"submission_value\":" ++ jsonString s.submission_value ++
    ",\"slot\":" ++ toString s.slot ++
    (match s.round with
     | some r => ",\"round\":" ++ toString r
     | none => "") ++ "\x7d"

/-- `JSON.stringify` of one entry of the values array (`undefined`
renders as `null`). -/
def jsonOptSubmission : Option Submission → String
  | some s => jsonSubmission s
  | none => "null"

/-- `JSON.stringify(values)` for the array of candidate
submissions. -/
def jsonStringifyValues (vs : List (Option Submission)) : String :=
  "[" ++ String.intercalate "," (vs.map jsonOptSubmission) ++ "]"

/-- `JSON.stringify(candidateSubmissionJson)` for the singleton object
`{keys[i]: values[i]}` (a property with `undefined` value is
dropped). -/
def jsonSingleton (k : String) : Option Submission → String
  | some s => "\x7b" ++ jsonString k ++ ":" ++ jsonSubmission s ++ "\x7d"
  | none => "\x7b\x7d"

/-! ## `nodeSelectionDistributionList` (`index.ts` lines 1115-1277) -/

/-- `calculateScore`: sum of `charCodeAt` over the string. -/
def calculateScore (s : String) : Nat := (s.toList.map Char.toNat).sum

/-- `compareASCII`: absolute difference of the two scores. -/
def compareASCII (s₁ s₂ : String) : Nat :=
  ((calculateScore s₁ : Int) - (calculateScore s₂ : Int)).natAbs

/-- The transient selection result (`{ score, pubkey }`). -/
structure SelNode where
  score : Nat
  pubkey : String
deriving DecidableEq

/-- The `isPreviousFailed == false` selection loop: running maximum
with strict improvement (`candidateScore > score`), starting from
`score = 0`, `selectedNode = { score: 0, pubkey: '' }`. -/
def selectHighestGo (score : Nat) (sel : SelNode) :
    List (String × Nat) → SelNode
  | [] => sel
  | (k, c) :: rest =>
    if score < c then selectHighestGo c ⟨c, k⟩ rest
    else selectHighestGo score sel rest

def selectHighest (cands : List (String × Nat)) : SelNode :=
  selectHighestGo 0 ⟨0, ""⟩ cands

/-- JavaScript `candidateScore > x` where `x` is a number variable
initialized to `-Infinity` (`none`). -/
def cmpGTInf (c : Nat) : Option Nat → Bool
  | none => true
  | some v => v < c

/-- The `isPreviousFailed == true` selection loop: a running
(`leastScore`, `secondLeastScore`) pair, both starting at
`-Infinity`; `selectedNode` is updated only in the `else if`
branch. -/
def selectSecondGo (least second : Option Nat) (sel : SelNode) :
    List (String × Nat) → SelNode
  | [] => sel
  | (k, c) :: rest =>
    if cmpGTInf c least then selectSecondGo (some c) least sel rest
    else if cmpGTInf c second then selectSecondGo least (some c) ⟨c, k⟩ rest
    else selectSecondGo least second sel rest

def selectSecond (cands : List (String × Nat)) : SelNode :=
  selectSecondGo none none ⟨0, ""⟩ cands

/-- Keys of `roundSubmissions.submissions[r]` for a best-effort fetch
of a preceding round (`null` state or missing round gives the empty
set). -/
def subKeysAt (info : Option TaskSubmissionState) (r : Nat) : List String :=
  match info with
  | some rs =>
    match alookup rs.submissions r with
    | some m => m.map Prod.fst
    | none => []
  | none => []

/-- JavaScript `Array.prototype.indexOf` (`-1` as `none`). -/
def jsIndexOf (xs : List String) (k : String) : Option Nat :=
  xs.findIdx? (fun x => x == k)

/-- The `PayoutFailed` pruning step (lines 1176-1203): if the round's
distribution audit record shows `PayoutFailed`, every key that already
submitted a distribution list this round is spliced out of
`keys`/`values`.  When `distribution_rewards_submission[round]` is
missing, `Object.keys(undefined)` throws and the surrounding
`try/catch` leaves `keys`/`values` untouched. -/
def removeFailedSubmitters (dist : Option TaskDistributionInfo) (round : Nat)
    (keys : List String) (values : List (Option Submission)) :
    List String × List (Option Submission) :=
  match dist with
  | none => (keys, values)
  | some d =>
    if alookup d.distributions_audit_record round = some "PayoutFailed" then
      match alookup d.distribution_rewards_submission round with
      | none => (keys, values)
      | some sl =>
        (sl.map Prod.fst).foldl
          (fun acc sk =>
            match jsIndexOf acc.1 sk with
            | none => acc
            | some i => (acc.1.eraseIdx i, acc.2.eraseIdx i))
          (keys, values)
    else (keys, values)

/-- The candidate pool of a selection call, with each candidate's
score against the round's reference hash: the common-key intersection
of the last three rounds (falling back to the current round's keys),
minus previously failed distribution submitters, scored by
`compareASCII` of SHA-256 digests (lines 1138-1242). -/
def candidatePool (tss : TaskSubmissionState)
    (prev1 prev2 : Option TaskSubmissionState)
    (dist : Option TaskDistributionInfo) (round : Nat) :
    List (String × Nat) :=
  match alookup tss.submissions round with
  | none => []
  | some submissions =>
    let curKeys := submissions.map Prod.fst
    let keySets : List (List String) :=
      if 2 ≤ round then
        [curKeys, subKeysAt prev1 (round - 1), subKeysAt prev2 (round - 2)]
      else if round = 1 then [curKeys, subKeysAt prev1 0]
      else [curKeys]
    let keys0 := curKeys.filter (fun k => keySets.all (fun s => s.contains k))
    let keys1 := if keys0.length = 0 then curKeys else keys0
    let values1 := keys1.map (fun k => alookup submissions k)
    let kv := removeFailedSubmitters dist round keys1 values1
    let hashDigest := sha256Hex (jsonStringifyValues kv.2)
    List.zipWith (fun k v => (k, compareASCII hashDigest (sha256Hex (jsonSingleton k v))))
      kv.1 kv.2

/-- The body of `nodeSelectionDistributionList` once the current
round's submission state has been fetched.  `prev1`/`prev2` are the
results of `getTaskSubmissionInfo` at `round - 1`/`round - 2` (only
consulted when `latestRounds` retains those rounds), `dist` the result
of `getTaskDistributionInfo(round)`. -/
def nodeSelectionBody (tss : TaskSubmissionState)
    (prev1 prev2 : Option TaskSubmissionState)
    (dist : Option TaskDistributionInfo) (round : Nat) (isPreviousFailed : Bool) :
    Option String :=
  match alookup tss.submissions round with
  | none => some "No submisssions found in N-1 round"
  | some _ =>
    let cands := candidatePool tss prev1 prev2 dist round
    if isPreviousFailed then some (selectSecond cands).pubkey
    else some (selectHighest cands).pubkey

/-- `nodeSelectionDistributionList`, with `getTaskSubmissionInfo` and
`getTaskDistributionInfo` as per-round oracles (`none` = `null`
state).  A `none` result is the `return` on a missing task state; a
`some` result is the returned string (a not-found message or the
selected pubkey, possibly `''`). -/
def nodeSelectionDistributionList (fetchSub : Nat → Option TaskSubmissionState)
    (fetchDist : Nat → Option TaskDistributionInfo) (round : Nat)
    (isPreviousFailed : Bool) : Option String :=
  match fetchSub round with
  | none => none
  | some tss =>
    nodeSelectionBody tss (fetchSub (round - 1)) (fetchSub (round - 2))
      (fetchDist round) round isPreviousFailed

/-- The scored candidate pool a selection call works with (empty when
the call returns before selection). -/
def scoredCandidates (fetchSub : Nat → Option TaskSubmissionState)
    (fetchDist : Nat → Option TaskDistributionInfo) (round : Nat) :
    List (String × Nat) :=
  match fetchSub round with
  | none => []
  | some tss =>
    candidatePool tss (fetchSub (round - 1)) (fetchSub (round - 2))
      (fetchDist round) round

/-! ## `retrieveThroughHttpGateway` (`index.ts` lines 844-877)

The network is an oracle `gw : String → Except Unit String` mapping a
URL to the fetched body (`Except.error` covers request errors,
timeouts and `response.text()` failures).  The embedding returns the
function's result together with the list of URLs actually requested,
in order. -/

/-- The fixed, ordered gateway URL list. -/
def listOfIpfsGatewaysUrls (cid fileName : String) : List String :=
  ["https://koii-k2-task-metadata.s3.us-east-2.amazonaws.com/" ++ cid ++ "/" ++ fileName,
   "https://" ++ cid ++ ".ipfs.w3s.link/" ++ fileName,
   "https://ipfs-gateway.koii.live/ipfs/" ++ cid ++ "/" ++ fileName,
   "https://" ++ cid ++ ".ipfs.dweb.link/" ++ fileName,
   "https://gateway.ipfs.io/ipfs/" ++ cid ++ "/" ++ fileName,
   "https://ipfs.io/ipfs/" ++ cid ++ "/" ++ fileName,
   "https://ipfs.eth.aragon.network/ipfs/" ++ cid ++ "/" ++ fileName]

/-- JavaScript `String.prototype.startsWith` (embedded over character
lists so that it evaluates inside the kernel). -/
def jsStartsWith (s p : String) : Bool := p.toList.isPrefixOf s.toList

/-- The `for (const url of listOfIpfsGatewaysUrls)` loop: returns the
requested URLs and the first body that is neither an error nor an
HTML error page (`startsWith('<')`). -/
def tryGateways (gw : String → Except Unit String) :
    List String → List String × Option String
  | [] => ([], none)
  | url :: rest =>
    match gw url with
    | .ok body =>
      if jsStartsWith body "<" then
        let r := tryGateways gw rest
        (url :: r.1, r.2)
      else ([url], some body)
    | .error _ =>
      let r := tryGateways gw rest
      (url :: r.1, r.2)

/-- `retrieveThroughHttpGateway`: first component is the returned
content or the thrown `Failed to get ... from IPFS` error, second the
trace of URLs requested. -/
def retrieveThroughHttpGateway (gw : String → Except Unit String)
    (cid fileName : String) : Except String String × List String :=
  let r := tryGateways gw (listOfIpfsGatewaysUrls cid fileName)
  match r.2 with
  | some body => (Except.ok body, r.1)
  | none => (Except.error ("Failed to get " ++ cid ++ " from IPFS"), r.1)

/-! ## `validateAndVoteOnNodes` (`index.ts` lines 657-818, standalone)

Per-candidate external effects are oracles bundled in an
environment: the gateway responses, `JSON.parse` of the fetched
payload (`none` = parse exception, caught by the per-candidate
`try/catch`), `verifySignature` (the `data` field of its result;
`none` = `error` result, so `receivedHash.data` is `undefined`), and
the caller-supplied async `validate` predicate. -/

/-- The parsed shape of a fetched IPFS payload
(`{ signedMessage, submission }`). -/
structure IpfsPayload where
  signedMessage : String
  submission : String
deriving DecidableEq

/-- The oracle bundle for a `validateAndVoteOnNodes` call. -/
structure AuditEnv where
  gw : String → Except Unit String
  parsePayload : String → Option IpfsPayload
  verifySig : String → String → Option String
  validate : String → Nat → String → Bool

/-- `receivedHash.data?.replace(/"/g, '')`: strip every double-quote
character. -/
def normalizeQuotes (s : String) : String :=
  String.mk (s.toList.filter (fun c => c.toNat != 34))

/-- The content-integrity comparison `calculatedHash ==
normalizedReceivedHash` (comparison with `undefined` is `false`). -/
def hashMatches (env : AuditEnv) (data : IpfsPayload) (cand : String) : Bool :=
  match (env.verifySig data.signedMessage cand).map normalizeQuotes with
  | some nrh => sha256Hex data.submission == nrh
  | none => false

/-- The per-candidate loop body of `validateAndVoteOnNodes` (lines
708-815).  A retrieval or parse failure is caught by the surrounding
`try/catch` and leaves the state untouched.  On a hash mismatch the
code casts a negative vote (lines 769-774) and then, since `isValid`
is still `false`, falls through into the common vote-casting tail
(lines 803-811). -/
def processSubmissionCandidate (env : AuditEnv) (stakingKey : String)
    (uploadToIPFS : Bool) (round : Nat) (cand : String) (subValue : String)
    (st : TaskState) : TaskState :=
  if uploadToIPFS then
    match (retrieveThroughHttpGateway env.gw subValue
            ("submissionValues" ++ toString round ++ ".json")).1 with
    | Except.error _ => st
    | Except.ok txt =>
      match env.parsePayload txt with
      | none => st
      | some data =>
        if hashMatches env data cand then
          submissionVoteStep st stakingKey cand
            (env.validate data.submission round cand) stakingKey round
        else
          submissionVoteStep
            (auditSubmission st stakingKey cand false stakingKey round)
            stakingKey cand false stakingKey round
  else
    submissionVoteStep st stakingKey cand
      (env.validate subValue round cand) stakingKey round

/-- `validateAndVoteOnNodes` (standalone: the fetched
`taskAccountDataJSON` aliases the live state `st`, and the self-vote
skip is disabled since `taskNodeAdministered` is `false`).
`sampledIndices` is the outcome of the reseeded random sampler, used
when `useRandomSampling`; otherwise all indices are visited in order.
Returns the final state and the `string | void` result. -/
def validateAndVoteOnNodes (env : AuditEnv) (stakingKey : String) (round : Nat)
    (useRandomSampling : Bool) (sampledIndices : List Nat) (uploadToIPFS : Bool)
    (st : TaskState) : TaskState × Option String :=
  match alookup st.submissions round with
  | none => (st, some ("No submissions found in round " ++ toString round))
  | some submissions =>
    let keys := submissions.map Prod.fst
    let values := submissions.map Prod.snd
    let size := values.length
    let indices := if useRandomSampling then sampledIndices else List.range size
    let final := indices.foldl
      (fun acc index =>
        match keys[index]?, values[index]? with
        | some cand, some v =>
          processSubmissionCandidate env stakingKey uploadToIPFS round cand
            v.submission_value acc
        | _, _ => acc)
      st
    (final, none)

/-- `validateAndVoteOnDistributionList` (`index.ts` lines 981-1088,
standalone): every distribution submission of the round is validated
in order by the caller-supplied predicate and the resulting vote cast
through `distributionVoteStep`. -/
def validateAndVoteOnDistributionList (validateDist : String → Nat → String → Bool)
    (stakingKey : String) (round : Nat) (st : TaskState) :
    TaskState × Option String :=
  match alookup st.distribution_rewards_submission round with
  | none => (st, some ("No submisssions found in round " ++ toString round))
  | some submissions =>
    let final := submissions.foldl
      (fun acc kv =>
        distributionVoteStep acc stakingKey kv.1
          (validateDist kv.2.submission_value round kv.1) stakingKey round)
      st
    (final, none)

/-! ## `payoutTrigger` (`index.ts` lines 1292-1306, standalone) -/

/-- `payoutTrigger`: the standalone branch reassigns `round = 1`
before touching any state, looks up
`testingDistributionList[1][stakingKey].submission_value` (a stored
`Buffer`, so the property is `undefined`, and indexing with it reads
key `"undefined"`), and assigns the result over `available_balances`.
`none` models the `TypeError` thrown when round 1 has no entry for
`stakingKey`. -/
def payoutTrigger (st : TaskState) (dl : DistLists) (stakingKey : String)
    (round : Nat) : Option TaskState :=
  let round := 1
  match (alookup dl round).bind (fun m => alookup m stakingKey) with
  | none => none
  | some entry =>
    let submissionValAcc := entry.submissionValueProp
    let key := match submissionValAcc with
      | some s => s
      | none => "undefined"
    some { st with
            available_balances := (alookup dl round).bind (fun m => alookup m key) }

/-! ## `selectAndGenerateDistributionList` (`index.ts` lines
1308-1347)

The result records the observable effects: `submittedRound = some r`
iff the caller-supplied `submitDistributionList(r)` callback was
invoked, `scheduledDelay = some d` iff `setTimeout(payoutTrigger, d)`
was scheduled.  `submitter` is `getSubmitterAccount()`'s public key,
`taskState` the result of `getTaskState({})`, `avgSlotTime` the value
produced by `getAverageSlotTime()` (the code guards it against
`null`). -/

structure SelectAndGenerateResult where
  submittedRound : Option Nat
  scheduledDelay : Option Nat
deriving DecidableEq

def selectAndGenerateDistributionList (fetchSub : Nat → Option TaskSubmissionState)
    (fetchDist : Nat → Option TaskDistributionInfo) (submitter : Option String)
    (taskState : Option TaskState) (avgSlotTime : Option Nat) (round : Nat)
    (isPreviousRoundFailed : Bool) : SelectAndGenerateResult :=
  let selectedNode := nodeSelectionDistributionList fetchSub fetchDist round
    isPreviousRoundFailed
  match selectedNode, submitter with
  | some sel, some pk =>
    if sel = "" then ⟨none, none⟩
    else if sel = pk then
      match taskState with
      | none => ⟨some round, none⟩
      | some ts =>
        match avgSlotTime with
        | none => ⟨some round, none⟩
        | some avg =>
          ⟨some round, some ((ts.audit_window + ts.submission_window) * avg)⟩
    else ⟨none, none⟩
  | _, _ => ⟨none, none⟩

deriving instance DecidableEq for Except

/-! ## Concrete instances used by witnesses and counterexamples -/

/-- Standalone-shaped submissions for a two-candidate round 0. -/
def subA : Submission := ⟨"val0", 100, some 0⟩

def subB : Submission := ⟨"wal0", 100, some 0⟩

def tssEx : TaskSubmissionState :=
  ⟨[(0, [("nodeA", subA), ("nodeB", subB)])], []⟩

def fetchSubEx : Nat → Option TaskSubmissionState := fun _ => some tssEx

def distInfoEx : TaskDistributionInfo := ⟨[], [], []⟩

def fetchDistEx : Nat → Option TaskDistributionInfo := fun _ => some distInfoEx

/-- A second pair of oracles, pointwise equal to the first. -/
def fetchSubEx2 : Nat → Option TaskSubmissionState := fun r => fetchSubEx r

def fetchDistEx2 : Nat → Option TaskDistributionInfo := fun r => fetchDistEx r

/-- A task state with the standalone default timing windows and no
submissions or triggers. -/
def emptyTaskState : TaskState := ⟨[], [], [], [], [], none, 200, 200⟩

def trigEx : AuditTriggerState := ⟨"T", 100, []⟩

/-- A state whose round 1 already has an audit trigger for `candA` on
both the submission and the distribution side. -/
def stWithTrigger : TaskState :=
  { emptyTaskState with
      submissions_audit_trigger := [(1, [("candA", trigEx)])]
      distributions_audit_trigger := [(1, [("candA", trigEx)])] }

/-- An audit environment whose first gateway returns a payload whose
signature does not verify (`verifySig` yields the `error` shape, so
`receivedHash.data` is `undefined`). -/
def envC4 : AuditEnv :=
  { gw := fun u =>
      if u = "https://koii-k2-task-metadata.s3.us-east-2.amazonaws.com/cid0/submissionValues1.json"
      then Except.ok "payload" else Except.error ()
    parsePayload := fun s => if s = "payload" then some ⟨"sm", "data"⟩ else none
    verifySig := fun _ _ => none
    validate := fun _ _ _ => true }

/-- An inert audit environment. -/
def envTrivial : AuditEnv :=
  ⟨fun _ => Except.error (), fun _ => none, fun _ _ => none, fun _ _ _ => true⟩

/-- A gateway oracle whose first URL errors and whose second returns
non-HTML content. -/
def gwEx : String → Except Unit String := fun u =>
  if u = "https://cid0.ipfs.w3s.link/f" then Except.ok "content" else Except.error ()


/-- A gateway attempt that the loop skips: a request error/timeout or
a body starting with `<`. -/
def gwFails (gw : String → Except Unit String) (u : String) : Bool :=
  match gw u with
  | Except.ok body => jsStartsWith body "<"
  | Except.error _ => true

/-- The maximum of the scores of a candidate list (0 for the empty
list). -/
def maxScores (l : List (String × Nat)) : Nat := (l.map Prod.snd).foldr max 0

/-- One update of the running `leastScore` variable. -/
def bump (o : Option Nat) (c : Nat) : Option Nat := if cmpGTInf c o then some c else o

/-- The value of the running `leastScore` variable after a prefix of
the candidate list has been processed. -/
def runLeast (least : Option Nat) (pre : List (String × Nat)) : Option Nat :=
  pre.foldl (fun o x => bump o x.2) least

/-! # Theorems -/

theorem alookup_aset_self {κ α : Type} [DecidableEq κ]
    (m : List (κ × α)) (k : κ) (v : α) : alookup (aset m k v) k = some v := by
  induction m with
  | nil => simp [aset, alookup]
  | cons hd tl ih =>
    obtain ⟨k₁, v₁⟩ := hd
    by_cases h : k₁ = k
    · simp [aset, alookup, h]
    · simp [aset, alookup, h, ih]


/-! ## Sanity checks of the SHA-256 embedding against FIPS 180-4 test
vectors -/

theorem sha256Hex_abc : sha256Hex "abc" =
    "ba7816bf8f01cfea414140de5dae2223b00361a396177a9cb410ff61f20015ad" := by decide

/-! ## Claim C2 -/

/-- **C2**: for every candidate evaluated by `validateAndVoteOnNodes`
or `validateAndVoteOnDistributionList`, a negative outcome always
creates or appends to that candidate's `AuditTriggerState`, while a
positive outcome appends exactly when a trigger already exists for
that candidate in that round and otherwise performs no write. -/
theorem claimC2_theorem (st : TaskState) (sk cand voter : String) (round : Nat) :
    (∀ b t, triggerFor st round cand = some t →
      triggerFor (submissionVoteStep st sk cand b voter round) round cand =
        some { t with votes := t.votes ++ [⟨b, voter, 100⟩] }) ∧
    (triggerFor st round cand = none →
      triggerFor (submissionVoteStep st sk cand false voter round) round cand =
        some ⟨sk, 100, []⟩ ∧
      submissionVoteStep st sk cand true voter round = st) ∧
    (∀ b t, distTriggerFor st round cand = some t →
      distTriggerFor (distributionVoteStep st sk cand b voter round) round cand =
        some { t with votes := t.votes ++ [⟨b, voter, 100⟩] }) ∧
    (distTriggerFor st round cand = none →
      distTriggerFor (distributionVoteStep st sk cand false voter round) round cand =
        some ⟨sk, 100, []⟩ ∧
      distributionVoteStep st sk cand true voter round = st) := by
  refine ⟨?_, ?_, ?_, ?_⟩
  · intro b t ht
    unfold triggerFor at ht ⊢
    cases h1 : alookup st.submissions_audit_trigger round with
    | none => simp [h1] at ht
    | some tm =>
      rw [h1] at ht
      simp only [Option.some_bind] at ht
      cases b <;>
        simp [submissionVoteStep, auditSubmission, h1, ht, alookup_aset_self]
  · intro h0
    unfold triggerFor at h0
    cases h1 : alookup st.submissions_audit_trigger round with
    | none =>
      constructor
      · simp [submissionVoteStep, auditSubmission, triggerFor, h1, alookup_aset_self,
          alookup]
      · simp [submissionVoteStep, h1]
    | some tm =>
      rw [h1] at h0
      simp only [Option.some_bind] at h0
      constructor
      · simp [submissionVoteStep, auditSubmission, triggerFor, h1, h0, alookup_aset_self,
          alookup]
      · simp [submissionVoteStep, h1, h0]
  · intro b t ht
    unfold distTriggerFor at ht ⊢
    cases h1 : alookup st.distributions_audit_trigger round with
    | none => simp [h1] at ht
    | some tm =>
      rw [h1] at ht
      simp only [Option.some_bind] at ht
      cases b <;>
        simp [distributionVoteStep, distributionListAuditSubmission, h1, ht,
          alookup_aset_self]
  · intro h0
    unfold distTriggerFor at h0
    cases h1 : alookup st.distributions_audit_trigger round with
    | none =>
      constructor
      · simp [distributionVoteStep, distributionListAuditSubmission, distTriggerFor,
          h1, alookup_aset_self, alookup]
      · simp [distributionVoteStep, h1]
    | some tm =>
      rw [h1] at h0
      simp only [Option.some_bind] at h0
      constructor
      · simp [distributionVoteStep, distributionListAuditSubmission, distTriggerFor,
          h1, h0, alookup_aset_self, alookup]
      · simp [distributionVoteStep, h1, h0]

/-- Witness for C2 at a concrete state: a positive vote on a candidate
whose trigger exists appends to it. -/
theorem claimC2_witness :
    triggerFor (submissionVoteStep stWithTrigger "S" "candA" true "S" 1) 1 "candA" =
      some ⟨"T", 100, [⟨true, "S", 100⟩]⟩ :=
  (claimC2_theorem stWithTrigger "S" "candA" "S" 1).1 true trigEx (by decide)

/-! ## Claim C3 -/

/-- **C3** fails on the code: at a state whose round 1 holds a trigger
for `candA`, casting a (negative) vote on the *different* candidate
`candB` of the same round makes `auditSubmission` take its `else`
branch, which replaces the whole round map
`submissions_audit_trigger[1]` by the singleton for `candB` — deleting
`candA`'s existing trigger.  The same happens on the distribution
side. -/
theorem claimC3_theorem :
    triggerFor stWithTrigger 1 "candA" = some trigEx ∧
    triggerFor (auditSubmission stWithTrigger "S" "candB" false "S" 1) 1 "candA" =
      none ∧
    triggerFor (auditSubmission stWithTrigger "S" "candB" false "S" 1) 1 "candB" =
      some ⟨"S", 100, []⟩ ∧
    distTriggerFor stWithTrigger 1 "candA" = some trigEx ∧
    distTriggerFor
      (distributionListAuditSubmission stWithTrigger "S" "candB" false "S" 1) 1
      "candA" = none := by decide

/-! ## Claim C9 -/

/-- **C9**: in standalone mode `payoutTrigger` ignores its round
argument — it reassigns `round = 1` before any state access, so the
result (including the `available_balances` update, read from round 1's
distribution list) is the same for every input round. -/
theorem claimC9_theorem (st : TaskState) (dl : DistLists) (stakingKey : String)
    (r r' : Nat) :
    payoutTrigger st dl stakingKey r = payoutTrigger st dl stakingKey r' ∧
    payoutTrigger st dl stakingKey r = payoutTrigger st dl stakingKey 1 :=
  ⟨rfl, rfl⟩

/-! ## Claim C10 -/

/-- **C10**: when no trigger exists for the candidate in the round,
both audit-submission operations create the record with an *empty*
votes list, and the created state does not depend on the `isValid`
argument — the trigger-opening vote's value is discarded. -/
theorem claimC10_theorem (st : TaskState) (sk cand voter : String) (round : Nat)
    (b : Bool) :
    (triggerFor st round cand = none →
      triggerFor (auditSubmission st sk cand b voter round) round cand =
        some ⟨sk, 100, []⟩ ∧
      auditSubmission st sk cand b voter round =
        auditSubmission st sk cand (!b) voter round) ∧
    (distTriggerFor st round cand = none →
      distTriggerFor (distributionListAuditSubmission st sk cand b voter round)
        round cand = some ⟨sk, 100, []⟩ ∧
      distributionListAuditSubmission st sk cand b voter round =
        distributionListAuditSubmission st sk cand (!b) voter round) := by
  constructor
  · intro h0
    unfold triggerFor at h0
    cases h1 : alookup st.submissions_audit_trigger round with
    | none =>
      simp [auditSubmission, triggerFor, h1, alookup_aset_self, alookup]
    | some tm =>
      rw [h1] at h0
      simp only [Option.some_bind] at h0
      simp [auditSubmission, triggerFor, h1, h0, alookup_aset_self, alookup]
  · intro h0
    unfold distTriggerFor at h0
    cases h1 : alookup st.distributions_audit_trigger round with
    | none =>
      simp [distributionListAuditSubmission, distTriggerFor, h1, alookup_aset_self,
        alookup]
    | some tm =>
      rw [h1] at h0
      simp only [Option.some_bind] at h0
      simp [distributionListAuditSubmission, distTriggerFor, h1, h0,
        alookup_aset_self, alookup]

/-- Witness for C10: opening a trigger with a negative vote on an
empty state stores an empty votes list. -/
theorem claimC10_witness :
    triggerFor (auditSubmission emptyTaskState "S" "candA" false "S" 3) 3 "candA" =
      some ⟨"S", 100, []⟩ :=
  ((claimC10_theorem emptyTaskState "S" "candA" "S" 3 false).1 (by decide)).1

/-! ## Claim C6 -/

/-- **C6**: when the fetched state holds no submissions for the round,
`validateAndVoteOnNodes` returns its not-found message with the state
untouched (in particular both audit-trigger tables are exactly as
before), and `nodeSelectionDistributionList` — which never writes —
returns its not-found message. -/
theorem claimC6_theorem (env : AuditEnv) (sk : String) (round : Nat)
    (useRandomSampling : Bool) (sampledIndices : List Nat) (uploadToIPFS : Bool)
    (st : TaskState) (fetchSub : Nat → Option TaskSubmissionState)
    (fetchDist : Nat → Option TaskDistributionInfo) (tss : TaskSubmissionState)
    (b : Bool) (h1 : alookup st.submissions round = none)
    (h2 : fetchSub round = some tss)
    (h3 : alookup tss.submissions round = none) :
    validateAndVoteOnNodes env sk round useRandomSampling sampledIndices
      uploadToIPFS st =
      (st, some ("No submissions found in round " ++ toString round)) ∧
    nodeSelectionDistributionList fetchSub fetchDist round b =
      some "No submisssions found in N-1 round" := by
  constructor
  · simp [validateAndVoteOnNodes, h1]
  · simp [nodeSelectionDistributionList, h2, nodeSelectionBody, h3]

/-- Witness for C6 at a concrete state with no submissions in
round 5. -/
theorem claimC6_witness :
    validateAndVoteOnNodes envTrivial "S" 5 false [] false emptyTaskState =
      (emptyTaskState, some "No submissions found in round 5") ∧
    nodeSelectionDistributionList (fun _ => some ⟨[], []⟩) (fun _ => none) 5 true =
      some "No submisssions found in N-1 round" := by
  have h := claimC6_theorem envTrivial "S" 5 false [] false emptyTaskState
    (fun _ => some ⟨[], []⟩) (fun _ => none) ⟨[], []⟩ true (by decide) rfl (by decide)
  exact h

/-! ## Claim C4 -/

/-- The claim says a hash mismatch casts *exactly one* negative vote.
On the code, the mismatch branch casts one negative vote and then
falls through into the common vote-casting tail, which casts a second
one: starting from a state whose trigger for `candA` has no votes, the
candidate ends up with **two** negative votes.  (`envC4`'s first
gateway answers, the payload parses, and signature verification fails,
so the normalized received hash is `undefined` and the comparison is a
mismatch.) -/
theorem claimC4_counterexample :
    (triggerFor (processSubmissionCandidate envC4 "S" true 1 "candA" "cid0" stWithTrigger)
        1 "candA").map (fun t => t.votes) =
      some [⟨false, "S", 100⟩, ⟨false, "S", 100⟩] := by decide

/-- **C4 (amended)**: with `uploadToIPFS = true`, once the gateway
content is retrieved and parsed, a candidate whose computed SHA-256
content hash does not equal the normalized signed hash receives *two*
negative vote casts (the mismatch branch casts one and the shared
vote-casting tail casts another), and the caller-supplied `validate`
predicate is not consulted (the outcome is identical for every
`validate`); when the hashes match, `validate` is invoked on the
embedded raw submission and its verdict is cast through the normal
vote step. -/
theorem claimC4_theorem (env : AuditEnv) (sk : String) (round : Nat)
    (cand cid txt : String) (data : IpfsPayload) (st : TaskState)
    (hret : (retrieveThroughHttpGateway env.gw cid
        ("submissionValues" ++ toString round ++ ".json")).1 = Except.ok txt)
    (hparse : env.parsePayload txt = some data) :
    (hashMatches env data cand = false →
      processSubmissionCandidate env sk true round cand cid st =
        submissionVoteStep (auditSubmission st sk cand false sk round) sk cand
          false sk round ∧
      ∀ v, processSubmissionCandidate { env with validate := v } sk true round
          cand cid st =
        processSubmissionCandidate env sk true round cand cid st) ∧
    (hashMatches env data cand = true →
      processSubmissionCandidate env sk true round cand cid st =
        submissionVoteStep st sk cand (env.validate data.submission round cand)
          sk round) := by
  constructor
  · intro hmm
    constructor
    · simp [processSubmissionCandidate, hret, hparse, hmm]
    · intro v
      have hm2 : hashMatches { env with validate := v } data cand = false := hmm
      simp [processSubmissionCandidate, hret, hparse, hmm, hm2]
  · intro hmm
    simp [processSubmissionCandidate, hret, hparse, hmm]

/-- Witness for the amended C4 at the concrete mismatching
environment. -/
theorem claimC4_witness :
    processSubmissionCandidate envC4 "S" true 1 "candA" "cid0" stWithTrigger =
      submissionVoteStep (auditSubmission stWithTrigger "S" "candA" false "S" 1)
        "S" "candA" false "S" 1 :=
  ((claimC4_theorem envC4 "S" 1 "candA" "cid0" "payload" ⟨"sm", "data"⟩
      stWithTrigger (by decide) (by decide)).1 (by decide)).1

/-! ## Claim C7 -/

theorem tryGateways_all_fail (gw : String → Except Unit String) :
    ∀ urls : List String, (∀ u ∈ urls, gwFails gw u = true) →
      tryGateways gw urls = (urls, none) := by
  intro urls
  induction urls with
  | nil => intro _; rfl
  | cons url rest ih =>
    intro h
    have hu := h url (List.mem_cons_self url rest)
    have hr := ih (fun u hm => h u (List.mem_cons_of_mem url hm))
    simp only [tryGateways]
    cases hgw : gw url with
    | ok body =>
      simp only [gwFails, hgw] at hu
      simp [hu, hr]
    | error e => simp [hr]

theorem tryGateways_first_success (gw : String → Except Unit String)
    (url : String) (body : String) :
    ∀ (pre : List String) (post : List String),
      (∀ u ∈ pre, gwFails gw u = true) → gw url = Except.ok body →
      jsStartsWith body "<" = false →
      tryGateways gw (pre ++ url :: post) = (pre ++ [url], some body) := by
  intro pre
  induction pre with
  | nil =>
    intro post _ hok hb
    simp [tryGateways, hok, hb]
  | cons x rest ih =>
    intro post h hok hb
    have hx := h x (List.mem_cons_self x rest)
    have hr := ih post (fun u hm => h u (List.mem_cons_of_mem x hm)) hok hb
    simp only [List.cons_append, tryGateways]
    cases hgw : gw x with
    | ok b =>
      simp only [gwFails, hgw] at hx
      simp [hx, hr]
    | error e => simp [hgw, hr]

/-- **C7**: `retrieveThroughHttpGateway` returns the body of the first
gateway (in list order) whose request succeeds with a body not
starting with `<`, having requested exactly the gateways up to and
including it — no later gateway is contacted; and when every gateway
errors, times out, or answers an HTML page, it throws the
`Failed to get ... from IPFS` error after trying the whole list. -/
theorem claimC7_theorem (gw : String → Except Unit String) (cid fn : String)
    (pre post : List String) (url body : String) :
    (listOfIpfsGatewaysUrls cid fn = pre ++ url :: post →
      (∀ u ∈ pre, gwFails gw u = true) → gw url = Except.ok body →
      jsStartsWith body "<" = false →
      retrieveThroughHttpGateway gw cid fn = (Except.ok body, pre ++ [url])) ∧
    ((∀ u ∈ listOfIpfsGatewaysUrls cid fn, gwFails gw u = true) →
      retrieveThroughHttpGateway gw cid fn =
        (Except.error ("Failed to get " ++ cid ++ " from IPFS"),
         listOfIpfsGatewaysUrls cid fn)) := by
  constructor
  · intro hsplit hpre hok hb
    unfold retrieveThroughHttpGateway
    rw [hsplit, tryGateways_first_success gw url body pre post hpre hok hb]
  · intro hall
    unfold retrieveThroughHttpGateway
    rw [tryGateways_all_fail gw _ hall]

/-- Witness for C7: the first gateway errors, the second succeeds with
non-HTML content; the call returns that content having contacted only
the first two gateways. -/
theorem claimC7_witness :
    retrieveThroughHttpGateway gwEx "cid0" "f" =
      (Except.ok "content",
       ["https://koii-k2-task-metadata.s3.us-east-2.amazonaws.com/cid0/f",
        "https://cid0.ipfs.w3s.link/f"]) :=
  (claimC7_theorem gwEx "cid0" "f"
      ["https://koii-k2-task-metadata.s3.us-east-2.amazonaws.com/cid0/f"]
      ["https://ipfs-gateway.koii.live/ipfs/cid0/f",
       "https://cid0.ipfs.dweb.link/f",
       "https://gateway.ipfs.io/ipfs/cid0/f",
       "https://ipfs.io/ipfs/cid0/f",
       "https://ipfs.eth.aragon.network/ipfs/cid0/f"]
      "https://cid0.ipfs.w3s.link/f" "content").1
    (by decide) (by decide) (by decide) (by decide)

/-! ## Claim C5 -/

/-- **C5**: node selection is deterministic — it depends only on the
fetched submission states of the round and its two predecessors, the
distribution info of the round, and the `isPreviousFailed` flag.  Two
runs whose oracles agree on exactly those inputs return the same
identity. -/
theorem claimC5_theorem (f₁ f₂ : Nat → Option TaskSubmissionState)
    (d₁ d₂ : Nat → Option TaskDistributionInfo) (round : Nat) (flag : Bool)
    (h₀ : f₁ round = f₂ round) (h₁ : f₁ (round - 1) = f₂ (round - 1))
    (h₂ : f₁ (round - 2) = f₂ (round - 2)) (hd : d₁ round = d₂ round) :
    nodeSelectionDistributionList f₁ d₁ round flag =
      nodeSelectionDistributionList f₂ d₂ round flag := by
  unfold nodeSelectionDistributionList
  rw [h₀, h₁, h₂, hd]

/-- Witness for C5: two pointwise-equal oracle pairs yield the same
selection on the concrete two-candidate round. -/
theorem claimC5_witness :
    nodeSelectionDistributionList fetchSubEx fetchDistEx 0 true =
      nodeSelectionDistributionList fetchSubEx2 fetchDistEx2 0 true :=
  claimC5_theorem fetchSubEx fetchSubEx2 fetchDistEx fetchDistEx2 0 true
    rfl rfl rfl rfl

/-! ## Claim C8 -/

/-- **C8**: the `submitDistributionList` callback runs only when the
selected identity equals the local submitter's public identity; when
it runs and both the task-state and average-slot-time lookups succeed,
the payout is scheduled after
`(audit_window + submission_window) * avgSlotTime` milliseconds; when
either lookup fails no payout is scheduled; and every caller that does
not invoke the callback (in particular every non-selected caller)
schedules no payout either. -/
theorem claimC8_theorem (fetchSub : Nat → Option TaskSubmissionState)
    (fetchDist : Nat → Option TaskDistributionInfo) (submitter : Option String)
    (taskState : Option TaskState) (avg : Option Nat) (round : Nat) (prev : Bool) :
    ((selectAndGenerateDistributionList fetchSub fetchDist submitter taskState avg
        round prev).submittedRound ≠ none →
      ∃ pk, submitter = some pk ∧ pk ≠ "" ∧
        nodeSelectionDistributionList fetchSub fetchDist round prev = some pk) ∧
    (∀ pk ts av, submitter = some pk → pk ≠ "" →
      nodeSelectionDistributionList fetchSub fetchDist round prev = some pk →
      taskState = some ts → avg = some av →
      selectAndGenerateDistributionList fetchSub fetchDist submitter taskState avg
          round prev =
        ⟨some round, some ((ts.audit_window + ts.submission_window) * av)⟩) ∧
    (taskState = none ∨ avg = none →
      (selectAndGenerateDistributionList fetchSub fetchDist submitter taskState avg
        round prev).scheduledDelay = none) ∧
    ((selectAndGenerateDistributionList fetchSub fetchDist submitter taskState avg
        round prev).submittedRound = none →
      (selectAndGenerateDistributionList fetchSub fetchDist submitter taskState avg
        round prev).scheduledDelay = none) := by
  refine ⟨?_, ?_, ?_, ?_⟩
  · intro hsub
    unfold selectAndGenerateDistributionList at hsub
    cases hsel : nodeSelectionDistributionList fetchSub fetchDist round prev with
    | none => rw [hsel] at hsub; cases submitter <;> simp at hsub
    | some sel =>
      rw [hsel] at hsub
      cases submitter with
      | none => simp at hsub
      | some pk =>
        by_cases hemp : sel = ""
        · simp [hemp] at hsub
        · by_cases heq : sel = pk
          · refine ⟨pk, rfl, ?_, ?_⟩
            · intro h; exact hemp (heq.trans h)
            · exact congrArg some heq
          · simp [hemp, heq] at hsub
  · intro pk ts av hpk hne hsel hts hav
    subst hpk hts hav
    unfold selectAndGenerateDistributionList
    rw [hsel]
    simp [hne]
  · intro hfail
    unfold selectAndGenerateDistributionList
    cases hsel : nodeSelectionDistributionList fetchSub fetchDist round prev with
    | none => cases submitter <;> simp
    | some sel =>
      cases submitter with
      | none => simp
      | some pk =>
        by_cases hemp : sel = ""
        · simp [hemp]
        · by_cases heq : sel = pk
          · subst heq
            rcases hfail with h | h
            · subst h; simp [hemp]
            · subst h; cases taskState <;> simp [hemp]
          · simp [hemp, heq]
  · intro hnone
    unfold selectAndGenerateDistributionList at hnone ⊢
    cases hsel : nodeSelectionDistributionList fetchSub fetchDist round prev with
    | none => cases submitter <;> simp
    | some sel =>
      rw [hsel] at hnone
      cases submitter with
      | none => simp
      | some pk =>
        by_cases hemp : sel = ""
        · simp [hemp]
        · by_cases heq : sel = pk
          · subst heq
            exfalso
            cases taskState with
            | none => simp [hemp] at hnone
            | some ts =>
              cases avg with
              | none => simp [hemp] at hnone
              | some av => simp [hemp] at hnone
          · simp [hemp, heq]

set_option maxRecDepth 100000 in
/-- Witness for C8: on the concrete two-candidate round the selected
node is `nodeB`; when the local submitter is `nodeB` and both lookups
succeed (windows 200/200, average slot time 400 ms), the callback runs
and the payout fires after `(200 + 200) * 400 = 160000` ms. -/
theorem claimC8_witness :
    selectAndGenerateDistributionList fetchSubEx fetchDistEx (some "nodeB")
      (some emptyTaskState) (some 400) 0 false = ⟨some 0, some 160000⟩ :=
  (claimC8_theorem fetchSubEx fetchDistEx (some "nodeB") (some emptyTaskState)
      (some 400) 0 false).2.1 "nodeB" emptyTaskState 400 rfl (by decide)
    (by decide) rfl rfl

/-! ## Claim C1: auxiliary characterizations of the two selection
loops -/

theorem maxScores_cons (k : String) (c : Nat) (rest : List (String × Nat)) :
    maxScores ((k, c) :: rest) = max c (maxScores rest) := rfl

theorem le_maxScores {l : List (String × Nat)} {x : String × Nat} (hx : x ∈ l) :
    x.2 ≤ maxScores l := by
  induction l with
  | nil => simp at hx
  | cons hd t ih =>
    obtain ⟨k, c⟩ := hd
    rcases List.mem_cons.mp hx with h | h
    · subst h; rw [maxScores_cons]; exact Nat.le_max_left _ _
    · exact le_trans (ih h) (by rw [maxScores_cons]; exact Nat.le_max_right _ _)

/-- The `isPreviousFailed == false` loop either never updates
`selectedNode` (when no score beats the initial `score`), or returns
the first candidate to reach the overall maximum: every earlier score
is strictly below it and every later score is at most it. -/
theorem selectHighestGo_spec :
    ∀ (l : List (String × Nat)) (s : Nat) (sel : SelNode),
      (selectHighestGo s sel l = sel ∧ maxScores l ≤ s) ∨
      (∃ pre k c post, l = pre ++ (k, c) :: post ∧
        selectHighestGo s sel l = ⟨c, k⟩ ∧ s < c ∧ maxScores pre < c ∧
        maxScores post ≤ c) := by
  intro l
  induction l with
  | nil => intro s sel; left; exact ⟨rfl, by simp [maxScores]⟩
  | cons hd rest ih =>
    intro s sel
    obtain ⟨k, c⟩ := hd
    by_cases h : s < c
    · rcases ih c ⟨c, k⟩ with ⟨heq, hmax⟩ | ⟨pre, k₁, c₁, post, hl, heq, hlt, hpre, hpost⟩
      · right
        refine ⟨[], k, c, rest, rfl, ?_, h, ?_, hmax⟩
        · simp [selectHighestGo, h, heq]
        · simp [maxScores]; omega
      · right
        refine ⟨(k, c) :: pre, k₁, c₁, post, by simp [hl], ?_, by omega, ?_, hpost⟩
        · simp [selectHighestGo, h, heq]
        · rw [maxScores_cons]; exact Nat.max_lt.mpr ⟨by omega, hpre⟩
    · rcases ih s sel with ⟨heq, hmax⟩ | ⟨pre, k₁, c₁, post, hl, heq, hlt, hpre, hpost⟩
      · left
        refine ⟨?_, ?_⟩
        · simp [selectHighestGo, h, heq]
        · rw [maxScores_cons]; exact Nat.max_le.mpr ⟨by omega, hmax⟩
      · right
        refine ⟨(k, c) :: pre, k₁, c₁, post, by simp [hl], ?_, hlt, ?_, hpost⟩
        · simp [selectHighestGo, h, heq]
        · rw [maxScores_cons]; exact Nat.max_lt.mpr ⟨by omega, hpre⟩

/-- The `isPreviousFailed == true` loop either never updates
`selectedNode`, or returns some candidate whose score did not beat the
running `leastScore` at the moment it was visited. -/
theorem selectSecondGo_spec :
    ∀ (l : List (String × Nat)) (least second : Option Nat) (sel : SelNode),
      (selectSecondGo least second sel l).pubkey = sel.pubkey ∨
      ∃ pre k c post, l = pre ++ (k, c) :: post ∧
        (selectSecondGo least second sel l).pubkey = k ∧
        cmpGTInf c (runLeast least pre) = false := by
  intro l
  induction l with
  | nil => intro least second sel; left; rfl
  | cons hd rest ih =>
    intro least second sel
    obtain ⟨k, c⟩ := hd
    by_cases h₁ : cmpGTInf c least = true
    · rcases ih (some c) least sel with hL | ⟨pre, k₁, c₁, post, hl, heq, hcond⟩
      · left; simpa [selectSecondGo, h₁] using hL
      · right
        refine ⟨(k, c) :: pre, k₁, c₁, post, by simp [hl], ?_, ?_⟩
        · simpa [selectSecondGo, h₁] using heq
        · have hb : bump least c = some c := by simp [bump, h₁]
          simpa [runLeast, hb] using hcond
    · by_cases h₂ : cmpGTInf c second = true
      · rcases ih least (some c) ⟨c, k⟩ with hL | ⟨pre, k₁, c₁, post, hl, heq, hcond⟩
        · right
          refine ⟨[], k, c, rest, rfl, ?_, ?_⟩
          · simpa [selectSecondGo, h₁, h₂] using hL
          · simp only [runLeast, List.foldl_nil]
            simpa using h₁
        · right
          refine ⟨(k, c) :: pre, k₁, c₁, post, by simp [hl], ?_, ?_⟩
          · simpa [selectSecondGo, h₁, h₂] using heq
          · have hb : bump least c = least := by simp [bump, h₁]
            simpa [runLeast, hb] using hcond
      · rcases ih least second sel with hL | ⟨pre, k₁, c₁, post, hl, heq, hcond⟩
        · left; simpa [selectSecondGo, h₁, h₂] using hL
        · right
          refine ⟨(k, c) :: pre, k₁, c₁, post, by simp [hl], ?_, ?_⟩
          · simpa [selectSecondGo, h₁, h₂] using heq
          · have hb : bump least c = least := by simp [bump, h₁]
            simpa [runLeast, hb] using hcond

theorem runLeast_some (t : List (String × Nat)) :
    ∀ v, runLeast (some v) t = some (max v (maxScores t)) := by
  induction t with
  | nil => intro v; simp [runLeast, maxScores]
  | cons hd t ih =>
    intro v
    obtain ⟨k, c⟩ := hd
    have hb : bump (some v) c = some (max v c) := by
      by_cases h : v < c
      · simp [bump, cmpGTInf, h, Nat.max_eq_right (le_of_lt h)]
      · simp [bump, cmpGTInf, h, Nat.max_eq_left (Nat.le_of_not_lt h)]
    calc runLeast (some v) ((k, c) :: t)
        = runLeast (some (max v c)) t := by simp [runLeast, hb]
      _ = some (max (max v c) (maxScores t)) := ih _
      _ = some (max v (maxScores ((k, c) :: t))) := by
          rw [maxScores_cons, Nat.max_assoc]

theorem runLeast_none_eq (pre : List (String × Nat)) (h : pre ≠ []) :
    runLeast none pre = some (maxScores pre) := by
  cases pre with
  | nil => simp at h
  | cons hd t =>
    obtain ⟨k, c⟩ := hd
    have hb : bump none c = some c := by simp [bump, cmpGTInf]
    calc runLeast none ((k, c) :: t)
        = runLeast (some c) t := by simp [runLeast, hb]
      _ = some (max c (maxScores t)) := runLeast_some t c
      _ = some (maxScores ((k, c) :: t)) := by rw [maxScores_cons]

/-- In a list with no duplicate keys, a key determines its split. -/
theorem nodup_split_unique :
    ∀ (pre : List (String × Nat)) (k : String) (c : Nat)
      (post pre' : List (String × Nat)) (c' : Nat) (post' : List (String × Nat)),
      ((pre ++ (k, c) :: post).map Prod.fst).Nodup →
      pre ++ (k, c) :: post = pre' ++ (k, c') :: post' →
      pre = pre' ∧ c = c' ∧ post = post' := by
  intro pre
  induction pre with
  | nil =>
    intro k c post pre' c' post' hnd heq
    cases pre' with
    | nil =>
      simp only [List.nil_append] at heq
      injection heq with h₁ h₂
      injection h₁ with h₃ h₄
      exact ⟨rfl, h₄, h₂⟩
    | cons y pre₂ =>
      exfalso
      simp only [List.nil_append, List.cons_append] at heq
      injection heq with h₁ h₂
      have hk : k ∈ post.map Prod.fst := by rw [h₂]; simp
      simp only [List.nil_append, List.map_cons, List.nodup_cons] at hnd
      exact hnd.1 hk
  | cons x pre₂ ih =>
    intro k c post pre' c' post' hnd heq
    cases pre' with
    | nil =>
      exfalso
      simp only [List.cons_append, List.nil_append] at heq
      injection heq with h₁ h₂
      simp only [List.cons_append, List.map_cons, List.nodup_cons] at hnd
      have hk : k ∈ (pre₂ ++ (k, c) :: post).map Prod.fst := by simp
      rw [h₁] at hnd
      exact hnd.1 hk
    | cons y pre₂' =>
      simp only [List.cons_append] at heq
      injection heq with h₁ h₂
      simp only [List.cons_append, List.map_cons, List.nodup_cons] at hnd
      obtain ⟨hp, hc, hq⟩ := ih k c post pre₂' c' post' hnd.2 h₂
      exact ⟨by rw [h₁, hp], hc, hq⟩

/-- With pairwise-distinct keys, none of them empty, and at least two
distinct scores, the two selection loops never pick the same
identity. -/
theorem select_diff (cands : List (String × Nat))
    (hnd : (cands.map Prod.fst).Nodup)
    (hne : "" ∉ cands.map Prod.fst)
    (h₂ : ∃ p ∈ cands, ∃ q ∈ cands, p.2 ≠ q.2) :
    (selectSecond cands).pubkey ≠ (selectHighest cands).pubkey := by
  rcases selectHighestGo_spec cands 0 ⟨0, ""⟩ with ⟨heq, hmax⟩ |
    ⟨pre, k, c, post, hl, heqH, h0c, hpre, hpost⟩
  · exfalso
    obtain ⟨p, hp, q, hq, hpq⟩ := h₂
    have hp0 : p.2 ≤ 0 := le_trans (le_maxScores hp) hmax
    have hq0 : q.2 ≤ 0 := le_trans (le_maxScores hq) hmax
    omega
  · have hkH : (selectHighest cands).pubkey = k := by
      show (selectHighestGo 0 ⟨0, ""⟩ cands).pubkey = k
      rw [heqH]
    have hkmem : k ∈ cands.map Prod.fst := by rw [hl]; simp
    rcases selectSecondGo_spec cands none none ⟨0, ""⟩ with hL |
      ⟨pre', k', c', post', hl', heqS, hcond⟩
    · intro hcontra
      rw [hkH] at hcontra
      have hk0 : k = "" := by rw [← hcontra]; exact hL
      exact hne (hk0 ▸ hkmem)
    · intro hcontra
      rw [hkH] at hcontra
      have hk'k : k' = k := by rw [← heqS]; exact hcontra
      subst hk'k
      have heq2 : pre ++ (k', c) :: post = pre' ++ (k', c') :: post' := by
        rw [← hl, ← hl']
      have hnd2 : ((pre ++ (k', c) :: post).map Prod.fst).Nodup := by
        rw [← hl]; exact hnd
      obtain ⟨hpp, hcc, _⟩ := nodup_split_unique pre k' c post pre' c' post' hnd2 heq2
      rw [← hpp, ← hcc] at hcond
      cases hpe : pre with
      | nil =>
        rw [hpe] at hcond
        simp [runLeast, cmpGTInf] at hcond
      | cons a b =>
        rw [runLeast_none_eq pre (by rw [hpe]; simp)] at hcond
        simp only [cmpGTInf, decide_eq_false_iff_not, Nat.not_lt] at hcond
        omega

set_option maxRecDepth 100000 in
/-- **C1 fails as stated**: on a two-candidate round whose scores are
263 and 445 (two distinct scores, with `nodeA` the unique
second-highest scorer), the `previousFailed = true` call returns the
empty string — not the candidate with the second-highest score (not a
candidate at all): when the running maximum is updated by the last
candidate, `selectedNode` is never assigned. -/
theorem claimC1_counterexample :
    nodeSelectionDistributionList fetchSubEx fetchDistEx 0 true = some "" ∧
    (scoredCandidates fetchSubEx fetchDistEx 0).map Prod.fst = ["nodeA", "nodeB"] ∧
    (scoredCandidates fetchSubEx fetchDistEx 0).map Prod.snd = [263, 445] :=
  ⟨by decide, by decide, by decide⟩

/-- **C1 (amended)**: when the candidate pool has pairwise-distinct,
non-empty identities and at least two distinct scores, the
`previousFailed = true` call never returns the same identity as the
`previousFailed = false` call — but it need not return the
second-highest scorer (it can return `''`, which is not a candidate,
as the counterexample shows). -/
theorem claimC1_theorem (fetchSub : Nat → Option TaskSubmissionState)
    (fetchDist : Nat → Option TaskDistributionInfo) (round : Nat)
    (hnd : ((scoredCandidates fetchSub fetchDist round).map Prod.fst).Nodup)
    (hne : "" ∉ (scoredCandidates fetchSub fetchDist round).map Prod.fst)
    (h₂ : ∃ p ∈ scoredCandidates fetchSub fetchDist round,
      ∃ q ∈ scoredCandidates fetchSub fetchDist round, p.2 ≠ q.2) :
    nodeSelectionDistributionList fetchSub fetchDist round true ≠
      nodeSelectionDistributionList fetchSub fetchDist round false := by
  cases hfs : fetchSub round with
  | none =>
    exfalso
    obtain ⟨p, hp, _⟩ := h₂
    simp [scoredCandidates, hfs] at hp
  | some tss =>
    cases hsub : alookup tss.submissions round with
    | none =>
      exfalso
      obtain ⟨p, hp, _⟩ := h₂
      simp [scoredCandidates, hfs, candidatePool, hsub] at hp
    | some subs =>
      have hcands : scoredCandidates fetchSub fetchDist round =
          candidatePool tss (fetchSub (round - 1)) (fetchSub (round - 2))
            (fetchDist round) round := by
        simp [scoredCandidates, hfs]
      rw [hcands] at hnd hne h₂
      simp only [nodeSelectionDistributionList, hfs, nodeSelectionBody, hsub]
      intro hc
      exact select_diff _ hnd hne h₂ (Option.some.inj hc)

set_option maxRecDepth 100000 in
/-- Witness for the amended C1 at the concrete two-candidate round:
the retry call and the normal call return different identities. -/
theorem claimC1_witness :
    nodeSelectionDistributionList fetchSubEx fetchDistEx 0 true ≠
      nodeSelectionDistributionList fetchSubEx fetchDistEx 0 false :=
  claimC1_theorem fetchSubEx fetchDistEx 0 (by decide) (by decide) (by decide)
